import Mathlib

/-!
Verification development for the zCloudPass vault client.

The repository ships the test suite and a secondary request module
(src/vitest.setup.ts); the production modules src/lib/crypto.ts and
src/lib/api.ts are exercised by the tests but their sources are not part of
the archive.  Definitions for those modules are therefore modelled from the
specification (spec.md), constrained by the behaviour the repository's own
tests pin down (storage key names, error messages, charset, blob shape).
Cryptographic primitives (the password-based KDF and the authenticated
encryption tag) are idealized as injective encodings: the specification's
contract — deterministic KDF, authenticated sealing whose tag verification
fails for a different key — is exactly the ideal functionality of those
primitives.
-/

namespace ZCloudPass

/-! ## Vault data model (spec §3, crypto.test.ts `Vault`/`VaultEntry`) -/
/-- A vault entry: `id` and `name` are required, the remaining four fields
are optional and, when absent, stay absent (`none`, never `""`). -/
structure VaultEntry where
  id : String
  name : String
  username : Option String := none
  password : Option String := none
  url : Option String := none
  notes : Option String := none
deriving DecidableEq, Repr

/-- A vault: an ordered sequence of entries. -/
structure Vault where
  entries : List VaultEntry
deriving DecidableEq, Repr

/-- Modelled from the spec: `createEmptyVault` returns `{ entries: [] }`. -/
def createEmptyVault : Vault := ⟨[]⟩

/-! ## Self-delimiting byte encodings

Variable-length quantity (base-128 varint, little-endian, continuation bit):
a self-delimiting injective byte encoding of naturals, the building block of
the canonical vault serialization and of the ideal authentication tag. -/
/-- Base-128 little-endian varint encoding of a natural number; every byte
with the high bit set announces a following byte. -/
def varint (n : Nat) : List Nat :=
  if h : n < 128 then [n] else (n % 128 + 128) :: varint (n / 128)
termination_by n
decreasing_by exact Nat.div_lt_self (by omega) (by omega)

/-- Decoder for `varint`, returning the value and the unconsumed bytes. -/
def parseVarint : List Nat → Option (Nat × List Nat)
  | [] => none
  | b :: rest =>
    if b < 128 then some (b, rest)
    else
      match parseVarint rest with
      | some (m, rest2) => some (m * 128 + (b - 128), rest2)
      | none => none

/-- Length-prefixed byte-sequence encoding: the sequence preceded by its
length as a varint. -/
def encBytes (bs : List Nat) : List Nat := varint bs.length ++ bs

/-- Decoder for `encBytes`: reads the length, then that many bytes. -/
def parseBytes (bs : List Nat) : Option (List Nat × List Nat) :=
  match parseVarint bs with
  | some (n, r) => if n ≤ r.length then some (r.take n, r.drop n) else none
  | none => none

/-! ## Canonical vault serialization

Modelled from the spec (§4.2): `encrypt` "serializes `vault` to a canonical
byte encoding" and `decrypt` "deserializes the bytes back into a `Vault`
value with field-for-field fidelity, including omission of absent optional
fields"; the encoding "must be a lossless text encoding".  The model encodes
every Unicode code point as a varint, strings length-prefixed, optional
fields behind a presence byte, entries in sequence order — a concrete
canonical lossless encoding. -/
/-- Lossless byte encoding of a character sequence: each code point as a
varint. -/
def charsToBytes : List Char → List Nat
  | [] => []
  | c :: cs => varint c.toNat ++ charsToBytes cs

/-- Decoder for `charsToBytes`, reading a given number of characters. -/
def parseChars : Nat → List Nat → Option (List Char × List Nat)
  | 0, bs => some ([], bs)
  | n + 1, bs =>
    match parseVarint bs with
    | some (m, r) =>
      match parseChars n r with
      | some (cs, r2) => some (Char.ofNat m :: cs, r2)
      | none => none
    | none => none

/-- String encoding: character count, then the encoded characters. -/
def encString (s : String) : List Nat :=
  varint s.data.length ++ charsToBytes s.data

/-- Decoder for `encString`. -/
def parseString (bs : List Nat) : Option (String × List Nat) :=
  match parseVarint bs with
  | some (n, r) =>
    match parseChars n r with
    | some (cs, r2) => some (String.mk cs, r2)
    | none => none
  | none => none

/-- Optional-string encoding: a presence byte (`0` = absent, `1` = present)
followed by the string when present, so an absent field stays absent. -/
def encOptString : Option String → List Nat
  | none => [0]
  | some s => 1 :: encString s

/-- Decoder for `encOptString`. -/
def parseOptString : List Nat → Option (Option String × List Nat)
  | 0 :: r => some (none, r)
  | 1 :: r =>
    match parseString r with
    | some (s, r2) => some (some s, r2)
    | none => none
  | _ => none

/-- Entry encoding: the six fields in declaration order. -/
def encEntry (e : VaultEntry) : List Nat :=
  encString e.id ++ encString e.name ++ encOptString e.username ++
    encOptString e.password ++ encOptString e.url ++ encOptString e.notes

/-- Decoder for `encEntry`. -/
def parseEntry (bs : List Nat) : Option (VaultEntry × List Nat) :=
  match parseString bs with
  | some (i, r1) =>
    match parseString r1 with
    | some (nm, r2) =>
      match parseOptString r2 with
      | some (us, r3) =>
        match parseOptString r3 with
        | some (pw, r4) =>
          match parseOptString r4 with
          | some (ur, r5) =>
            match parseOptString r5 with
            | some (nt, r6) => some (⟨i, nm, us, pw, ur, nt⟩, r6)
            | none => none
          | none => none
        | none => none
      | none => none
    | none => none
  | none => none

/-- Decoder for a run of entries. -/
def parseEntries : Nat → List Nat → Option (List VaultEntry × List Nat)
  | 0, bs => some ([], bs)
  | n + 1, bs =>
    match parseEntry bs with
    | some (e, r) =>
      match parseEntries n r with
      | some (es, r2) => some (e :: es, r2)
      | none => none
    | none => none

/-- Canonical serialization of a vault: entry count, then the entries. -/
def serializeVault (v : Vault) : List Nat :=
  varint v.entries.length ++ (v.entries.map encEntry).flatten

/-- Decoder for `serializeVault`. -/
def parseVault (bs : List Nat) : Option (Vault × List Nat) :=
  match parseVarint bs with
  | some (n, r) =>
    match parseEntries n r with
    | some (es, r2) => some (⟨es⟩, r2)
    | none => none
  | none => none

/-! ## Key derivation and authenticated encryption

Modelled from the spec (§4.1, §4.2): `deriveKey(masterPassword, salt)` is a
deterministic password-based KDF — identical inputs always yield the
identical key — and the vault bytes are sealed "with an
authenticated-encryption transform (confidentiality + integrity in one
primitive) under that key and nonce".  The KDF is idealized as the injective
map onto its inputs and the authentication tag as an injective encoding of
(key, nonce, plaintext): the ideal functionality the spec's security
contract (wrong password ⟹ tag verification fails) relies on.
Confidentiality is not modelled. -/
/-- A derived symmetric key; the ideal KDF keeps the key separate for every
distinct (password, salt) pair. -/
structure DerivedKey where
  password : String
  salt : List Nat
deriving DecidableEq, Repr

/-- Modelled from the spec: deterministic password-based key derivation,
idealized as the injective pairing of password and salt. -/
def deriveKey (masterPassword : String) (salt : List Nat) : DerivedKey :=
  ⟨masterPassword, salt⟩

/-- The authentication tag over (key, nonce, plaintext), idealized as the
injective concatenation of the self-delimiting encodings of the four
components. -/
def macBytes (key : DerivedKey) (nonce pt : List Nat) : List Nat :=
  encString key.password ++ encBytes key.salt ++ encBytes nonce ++ encBytes pt

/-- Authenticated sealing: length-prefixed plaintext followed by the tag. -/
def sealAE (key : DerivedKey) (nonce pt : List Nat) : List Nat :=
  encBytes pt ++ macBytes key nonce pt

/-- Authenticated opening: recover the plaintext, recompute the tag, fail
unless it verifies. -/
def openAE (key : DerivedKey) (nonce payload : List Nat) : Option (List Nat) :=
  match parseBytes payload with
  | some (pt, rest) => if rest = macBytes key nonce pt then some pt else none
  | none => none

/-! ## Base64 transport encoding

The blob is "one transport-safe ASCII string" (spec §4.2); crypto.test.ts
pins the format to base64 (`/^[A-Za-z0-9+/=]*$/`).  Standard base64 with
strict decoding: padding only as a final `==` or `=`, any character outside
the alphabet rejects. -/
/-- The 64-character base64 alphabet. -/
def b64Alphabet : List Char :=
  "ABCDEFGHIJKLMNOPQRSTUVWXYZabcdefghijklmnopqrstuvwxyz0123456789+/".data

/-- Character for a six-bit group. -/
def b64Char (n : Nat) : Char := b64Alphabet.getD n 'A'

/-- Six-bit group for a character; `none` when outside the alphabet. -/
def b64Index (c : Char) : Option Nat :=
  let i := b64Alphabet.indexOf c
  if i < 64 then some i else none

/-- Base64 encoder over byte triples, padding the final partial group. -/
def b64Encode : List Nat → List Char
  | [] => []
  | [b1] => [b64Char (b1 / 4), b64Char (b1 % 4 * 16), '=', '=']
  | [b1, b2] =>
    [b64Char (b1 / 4), b64Char (b1 % 4 * 16 + b2 / 16), b64Char (b2 % 16 * 4), '=']
  | b1 :: b2 :: b3 :: rest =>
    b64Char (b1 / 4) :: b64Char (b1 % 4 * 16 + b2 / 16) ::
      b64Char (b2 % 16 * 4 + b3 / 64) :: b64Char (b3 % 64) :: b64Encode rest

/-- Strict base64 decoder: quadruples of alphabet characters, with padding
accepted only as the tail of the final quadruple. -/
def b64Decode : List Char → Option (List Nat)
  | [] => some []
  | c1 :: c2 :: c3 :: c4 :: rest =>
    if c3 = '=' then
      if c4 = '=' ∧ rest = [] then
        match b64Index c1, b64Index c2 with
        | some s1, some s2 => if s2 % 16 = 0 then some [s1 * 4 + s2 / 16] else none
        | _, _ => none
      else none
    else if c4 = '=' then
      if rest = [] then
        match b64Index c1, b64Index c2, b64Index c3 with
        | some s1, some s2, some s3 =>
          if s3 % 4 = 0 then some [s1 * 4 + s2 / 16, s2 % 16 * 16 + s3 / 4] else none
        | _, _, _ => none
      else none
    else
      match b64Index c1, b64Index c2, b64Index c3, b64Index c4, b64Decode rest with
      | some s1, some s2, some s3, some s4, some bs =>
        some ((s1 * 4 + s2 / 16) :: (s2 % 16 * 16 + s3 / 4) :: (s3 % 4 * 64 + s4) :: bs)
      | _, _, _, _, _ => none
  | _ => none

/-- Transport encoding of a byte sequence as an ASCII base64 string. -/
def encodeB64 (bs : List Nat) : String := String.mk (b64Encode bs)

/-- Strict transport decoding of a base64 string. -/
def decodeB64 (s : String) : Option (List Nat) := b64Decode s.data

/-! ## VaultCipher: encryptVault / decryptVault

Modelled from the spec (§4.2) and crypto.test.ts: the blob is
base64(salt ‖ nonce ‖ sealed payload); decryption re-derives the key from
the embedded salt, opens the authenticated payload and deserializes, and
fails with the single `DecryptionError` ("Failed to decrypt vault") on a
malformed blob or a failed tag check — the two cases indistinguishable. -/
/-- Byte length of the random salt embedded in a blob. -/
def SALT_LEN : Nat := 16

/-- Byte length of the random nonce embedded in a blob. -/
def NONCE_LEN : Nat := 12

/-- The single decryption failure: one value for wrong password, tampering
and malformed input alike, so the caller cannot tell which part failed. -/
inductive CryptoError where
  | decryptionError
deriving DecidableEq, Repr

/-- The error message crypto.test.ts pins down. -/
def CryptoError.message : CryptoError → String
  | .decryptionError => "Failed to decrypt vault"

/-- Modelled from the spec: `encrypt(vault, masterPassword)`.  The fresh
random salt and nonce the implementation samples on each call appear as
explicit arguments, so the non-deterministic sampling is the caller's
environment and everything else is pure. -/
def encryptVault (vault : Vault) (masterPassword : String)
    (salt nonce : List Nat) : String :=
  encodeB64 (salt ++ (nonce ++
    sealAE (deriveKey masterPassword salt) nonce (serializeVault vault)))

/-- Deserialization step of `decryptVault`: the parse must consume the
plaintext exactly and yield one vault. -/
def vaultOfParse : Option (Vault × List Nat) → Except CryptoError Vault
  | some (v, []) => Except.ok v
  | some (_, _ :: _) => Except.error CryptoError.decryptionError
  | none => Except.error CryptoError.decryptionError

/-- Opening step of `decryptVault`: a failed tag check is the same
`decryptionError` as a failed parse. -/
def finishDecrypt : Option (List Nat) → Except CryptoError Vault
  | some pt => vaultOfParse (parseVault pt)
  | none => Except.error CryptoError.decryptionError

/-- Body of `decryptVault` on the decoded bytes: split off salt and nonce,
re-derive the key, open the authenticated payload. -/
def decryptBytes (masterPassword : String) (bytes : List Nat) :
    Except CryptoError Vault :=
  if SALT_LEN + NONCE_LEN ≤ bytes.length then
    finishDecrypt (openAE (deriveKey masterPassword (bytes.take SALT_LEN))
      ((bytes.drop SALT_LEN).take NONCE_LEN)
      ((bytes.drop SALT_LEN).drop NONCE_LEN))
  else Except.error CryptoError.decryptionError

/-- Modelled from the spec: `decrypt(blob, masterPassword)`.  Total: every
failure path returns `CryptoError.decryptionError`. -/
def decryptVault (blob : String) (masterPassword : String) :
    Except CryptoError Vault :=
  match decodeB64 blob with
  | some bytes => decryptBytes masterPassword bytes
  | none => Except.error CryptoError.decryptionError

/-! ## Durable client-side store

The browser `localStorage`: a durable string-keyed string store surviving
reloads.  Modelled as an association list with last-write-wins `setItem`. -/
/-- The durable client-side key-value store. -/
def Store : Type := List (String × String)

/-- Read a key; `none` when absent. -/
def getItem (s : Store) (k : String) : Option String :=
  (List.find? (fun p => p.fst == k) s).map Prod.snd

/-- Write a key, replacing any previous binding. -/
def setItem (s : Store) (k v : String) : Store :=
  (k, v) :: List.filter (fun p => !(p.fst == k)) s

/-- Delete a key. -/
def removeItem (s : Store) (k : String) : Store :=
  List.filter (fun p => !(p.fst == k)) s

/-- Model of `localStorage.clear()`: the empty store. -/
def clearStore : Store := []

/-! ## SessionClient: the api module

Modelled from the spec (§4.3, §6, §7) under the behaviour api.test.ts pins
down: the token lives in the durable store under the fixed key
`session_token`; authenticated calls fail with `NoSessionError`
("No session token found") when no token is held; a 401 clears the token
and fails with `SessionExpiredError` ("Session expired"); any other
non-success status fails with `ApiError(status)` ("API error {status}");
login failure is the uniform `SessionError` sharing the "Session expired"
message; non-JSON success bodies give an empty result. -/
/-- The fixed storage key of the session token. -/
def SESSION_TOKEN_KEY : String := "session_token"

/-- The error taxonomy of the api module (spec §7). -/
inductive ApiFailure where
  | noSession
  | sessionExpired
  | apiError (status : Nat)
  | networkError (msg : String)
deriving DecidableEq, Repr

/-- The user-visible message of each failure, as the tests assert it. -/
def ApiFailure.message : ApiFailure → String
  | .noSession => "No session token found"
  | .sessionExpired => "Session expired"
  | .apiError status => "API error " ++ toString status
  | .networkError msg => msg

/-- An HTTP response as the client observes it: success flag, status code,
whether the body declares a JSON content type, and the JSON fields the
endpoints of this client read. -/
structure HttpResponse where
  ok : Bool
  status : Nat := 200
  jsonContentType : Bool := true
  session_token : String := ""
  expires_at : String := ""
  encrypted_vault : Option String := none
deriving DecidableEq, Repr

/-- Modelled from the spec: `login`.  On success stores the returned token
under `SESSION_TOKEN_KEY`; on any non-success response fails with the
uniform session error, the status not exposed. -/
def login (store : Store) (resp : HttpResponse) :
    Except ApiFailure (String × String) × Store :=
  if resp.ok then
    ((Except.ok (resp.session_token, resp.expires_at)),
      setItem store SESSION_TOKEN_KEY resp.session_token)
  else (Except.error ApiFailure.sessionExpired, store)

/-- Modelled from the spec: `register`.  Unauthenticated; non-success gives
`ApiError(status)`. -/
def register (store : Store) (resp : HttpResponse) :
    Except ApiFailure HttpResponse × Store :=
  if resp.ok then (Except.ok resp, store)
  else (Except.error (ApiFailure.apiError resp.status), store)

/-- Shared authenticated-request handling of getVault / updateVault /
changePassword: require a non-empty stored token, burn it on a 401, map
other failures to `ApiError(status)`. -/
def authedResult (store : Store) (resp : HttpResponse) :
    Except ApiFailure HttpResponse × Store :=
  match getItem store SESSION_TOKEN_KEY with
  | none => (Except.error ApiFailure.noSession, store)
  | some t =>
    if t = "" then (Except.error ApiFailure.noSession, store)
    else if resp.ok then (Except.ok resp, store)
    else if resp.status = 401 then
      (Except.error ApiFailure.sessionExpired, removeItem store SESSION_TOKEN_KEY)
    else (Except.error (ApiFailure.apiError resp.status), store)

/-- Modelled from the spec: `getVault`.  On success returns the
`encrypted_vault` field (possibly `null`); a non-JSON success body yields
the empty result rather than a parse error. -/
def getVault (store : Store) (resp : HttpResponse) :
    Except ApiFailure (Option String) × Store :=
  match authedResult store resp with
  | (Except.ok r, s) =>
    (Except.ok (if r.jsonContentType then r.encrypted_vault else none), s)
  | (Except.error e, s) => (Except.error e, s)

/-- Modelled from the spec: `updateVault`.  Same session handling; the blob
to store travels in the request body, which the failure behaviour does not
depend on. -/
def updateVault (store : Store) (resp : HttpResponse)
    (_encryptedVault : String) : Except ApiFailure Unit × Store :=
  match authedResult store resp with
  | (Except.ok _, s) => (Except.ok (), s)
  | (Except.error e, s) => (Except.error e, s)

/-- Modelled from the spec: `changePassword`.  Same session handling. -/
def changePassword (store : Store) (resp : HttpResponse)
    (_currentPassword _newPassword : String) : Except ApiFailure Unit × Store :=
  match authedResult store resp with
  | (Except.ok _, s) => (Except.ok (), s)
  | (Except.error e, s) => (Except.error e, s)

/-- Modelled from the spec: `isAuthenticated` — a pure read of whether a
non-empty token is held. -/
def isAuthenticated (store : Store) : Bool :=
  match getItem store SESSION_TOKEN_KEY with
  | some t => !(t == "")
  | none => false

/-- Modelled from the spec: `logout` — clears the token, never fails. -/
def logout (store : Store) : Store := removeItem store SESSION_TOKEN_KEY

/-! ## PasswordGenerator

Modelled from the spec (§4.4): `generate(length = 16, charset =
defaultCharset)` draws `length` characters independently from the fixed
default charset using a cryptographically strong random source; the random
source appears as an explicit stream of naturals. -/
/-- The fixed default charset, as crypto.test.ts declares it. -/
def defaultCharset : String :=
  "abcdefghijklmnopqrstuvwxyzABCDEFGHIJKLMNOPQRSTUVWXYZ0123456789!@#$%^&*()_+-=[]\x7b\x7d|;:,.<>?"

/-- Modelled from the spec: `generatePassword(length = 16)`; each output
character is the charset entry selected by a fresh random draw reduced
modulo the charset size. -/
def generatePassword (rand : Nat → Nat) (len : Nat := 16) : String :=
  String.mk ((List.range len).map
    (fun i => defaultCharset.data.getD (rand i % defaultCharset.data.length) 'a'))

/-! ## The embedded session-less request module (src/vitest.setup.ts:252-278)

This module is present in the archive verbatim; its three functions are
embedded here directly from that source.  Each function is split into the
request value it passes to `fetch` and the handling of the response. -/
namespace SetupApi

/-- The base URL constant of the module (vitest.setup.ts:252). -/
def API_URL : String := "http://localhost:3000"

/-- The argument the module passes to `fetch`: URL, method, header list and
the JSON body fields (`JSON.stringify` of the listed pairs). -/
structure FetchRequest where
  url : String
  method : String
  headers : List (String × String)
  body : Option (List (String × String))
deriving DecidableEq, Repr

/-- A response as this module reads it: `ok`, `status`, and the
`encrypted_vault` field of the JSON body. -/
structure SetupResponse where
  ok : Bool
  status : Nat := 200
  encrypted_vault : String := ""
deriving DecidableEq, Repr

/-- The fetch call of `registerUser` (vitest.setup.ts:255-259): POST to
`/register`, JSON content type, no Authorization header. -/
def registerUserRequest (email encryptedVault : String) : FetchRequest :=
  { url := API_URL ++ "/register", method := "POST",
    headers := [("Content-Type", "application/json")],
    body := some [("email", email), ("encrypted_vault", encryptedVault)] }

/-- Response handling of `registerUser` (vitest.setup.ts:260-261): any
non-ok response rejects with the fixed message "Registration failed". -/
def registerUser (_email _encryptedVault : String) (resp : SetupResponse) :
    Except String Unit :=
  if resp.ok then Except.ok () else Except.error "Registration failed"

/-- The fetch call of `getVault` (vitest.setup.ts:265): a bare
`fetch(url)` — GET, no options, no headers at all — with the user's email
in the URL path. -/
def getVaultRequest (email : String) : FetchRequest :=
  { url := API_URL ++ "/vault/" ++ email, method := "GET",
    headers := [], body := none }

/-- Response handling of `getVault` (vitest.setup.ts:266-268): non-ok
rejects with the fixed message "Failed to get vault"; ok returns the
`encrypted_vault` field. -/
def getVault (_email : String) (resp : SetupResponse) : Except String String :=
  if resp.ok then Except.ok resp.encrypted_vault
  else Except.error "Failed to get vault"

/-- The fetch call of `updateVault` (vitest.setup.ts:272-276): PUT to
`/vault/{email}`, JSON content type, no Authorization header. -/
def updateVaultRequest (email encryptedVault : String) : FetchRequest :=
  { url := API_URL ++ "/vault/" ++ email, method := "PUT",
    headers := [("Content-Type", "application/json")],
    body := some [("encrypted_vault", encryptedVault)] }

/-- Response handling of `updateVault` (vitest.setup.ts:277): non-ok
rejects with the fixed message "Failed to update vault". -/
def updateVault (_email _encryptedVault : String) (resp : SetupResponse) :
    Except String Unit :=
  if resp.ok then Except.ok () else Except.error "Failed to update vault"

end SetupApi

/-! ## The persisted state the Vault component operates on

src/tests/components/Vault.test.tsx:29-33 establishes, before every test of
the Vault component, the durable store `localStorage.clear()` followed by
`localStorage.setItem('master_password_hash', 'test-password')`, and the
test at lines 171-177 ("should handle decryption with password from
localStorage") exercises the component's decryption reading that key — the
component's operating state keeps the master-password hash in the durable
store. -/
/-- The storage key of the persisted master-password hash
(Vault.test.tsx:32). -/
def MASTER_PASSWORD_HASH_KEY : String := "master_password_hash"

/-- The durable store the Vault component tests establish: cleared, then
the master-password hash written. -/
def vaultTestStore : Store :=
  setItem clearStore MASTER_PASSWORD_HASH_KEY "test-password"

/-- The property claimed of every reachable client state: no key other than
the session token holds a value in the durable store. -/
def onlySessionTokenPersisted (s : Store) : Prop :=
  ∀ k v, getItem s k = some v → k = SESSION_TOKEN_KEY

/-! ## Properties and claims -/

theorem parseVarint_varint (n : Nat) (tl : List Nat) :
    parseVarint (varint n ++ tl) = some (n, tl) := by
  induction n using Nat.strong_induction_on with
  | _ n ih =>
    rw [varint]
    by_cases h : n < 128
    · simp [h, parseVarint]
    · have hrec := ih (n / 128) (Nat.div_lt_self (by omega) (by omega))
      simp only [h, dite_false, List.cons_append, parseVarint,
        if_neg (by omega : ¬ (n % 128 + 128 < 128)), hrec,
        Option.some.injEq, Prod.mk.injEq, and_true]
      have := Nat.div_add_mod n 128
      omega

theorem varint_lt (n : Nat) : ∀ b ∈ varint n, b < 256 := by
  induction n using Nat.strong_induction_on with
  | _ n ih =>
    rw [varint]
    by_cases h : n < 128
    · simp [h]; omega
    · have hrec := ih (n / 128) (Nat.div_lt_self (by omega) (by omega))
      simp only [h, dite_false, List.mem_cons]
      rintro b (rfl | hb)
      · omega
      · exact hrec b hb

theorem parseBytes_encBytes (bs tl : List Nat) :
    parseBytes (encBytes bs ++ tl) = some (bs, tl) := by
  unfold parseBytes encBytes
  rw [List.append_assoc, parseVarint_varint]
  simp [List.take_left, List.drop_left]

theorem encBytes_lt (bs : List Nat) (h : ∀ b ∈ bs, b < 256) :
    ∀ b ∈ encBytes bs, b < 256 := by
  intro b hb
  rcases List.mem_append.mp hb with h1 | h2
  · exact varint_lt _ b h1
  · exact h b h2

/-- An append of a length-prefixed field determines that field: the key
cancellation property behind tag non-malleability. -/
theorem encBytes_append_inj {b1 b2 r1 r2 : List Nat}
    (h : encBytes b1 ++ r1 = encBytes b2 ++ r2) : b1 = b2 ∧ r1 = r2 := by
  have h1 := parseBytes_encBytes b1 r1
  rw [h, parseBytes_encBytes] at h1
  exact ⟨(Prod.mk.injEq _ _ _ _ ▸ (Option.some.injEq _ _ ▸ h1)).1.symm,
         (Prod.mk.injEq _ _ _ _ ▸ (Option.some.injEq _ _ ▸ h1)).2.symm⟩

theorem parseChars_charsToBytes (cs : List Char) (tl : List Nat) :
    parseChars cs.length (charsToBytes cs ++ tl) = some (cs, tl) := by
  induction cs with
  | nil => rfl
  | cons c cs ih =>
    simp only [charsToBytes, List.length_cons, parseChars, List.append_assoc,
      parseVarint_varint, ih, Char.ofNat_toNat]

theorem charsToBytes_lt (cs : List Char) : ∀ b ∈ charsToBytes cs, b < 256 := by
  induction cs with
  | nil => simp [charsToBytes]
  | cons c cs ih =>
    intro b hb
    rcases List.mem_append.mp hb with h1 | h2
    · exact varint_lt _ b h1
    · exact ih b h2

theorem parseString_encString (s : String) (tl : List Nat) :
    parseString (encString s ++ tl) = some (s, tl) := by
  unfold parseString encString
  rw [List.append_assoc, parseVarint_varint]
  simp only [parseChars_charsToBytes]

theorem encString_lt (s : String) : ∀ b ∈ encString s, b < 256 := by
  intro b hb
  rcases List.mem_append.mp hb with h1 | h2
  · exact varint_lt _ b h1
  · exact charsToBytes_lt _ b h2

theorem encString_append_inj {s1 s2 : String} {r1 r2 : List Nat}
    (h : encString s1 ++ r1 = encString s2 ++ r2) : s1 = s2 ∧ r1 = r2 := by
  have h1 := parseString_encString s1 r1
  rw [h, parseString_encString] at h1
  injection h1 with h2
  exact ⟨(Prod.mk.injEq _ _ _ _ ▸ h2).1.symm, (Prod.mk.injEq _ _ _ _ ▸ h2).2.symm⟩

theorem parseOptString_encOptString (o : Option String) (tl : List Nat) :
    parseOptString (encOptString o ++ tl) = some (o, tl) := by
  cases o with
  | none => rfl
  | some s => simp only [encOptString, List.cons_append, parseOptString,
      parseString_encString]

theorem encOptString_lt (o : Option String) : ∀ b ∈ encOptString o, b < 256 := by
  cases o with
  | none => simp [encOptString]
  | some s =>
    intro b hb
    rcases List.mem_cons.mp hb with rfl | h2
    · omega
    · exact encString_lt _ b h2

theorem parseEntry_encEntry (e : VaultEntry) (tl : List Nat) :
    parseEntry (encEntry e ++ tl) = some (e, tl) := by
  unfold parseEntry encEntry
  simp only [List.append_assoc, parseString_encString, parseOptString_encOptString]

theorem encEntry_lt (e : VaultEntry) : ∀ b ∈ encEntry e, b < 256 := by
  intro b hb
  unfold encEntry at hb
  simp only [List.append_assoc, List.mem_append] at hb
  rcases hb with h | h | h | h | h | h
  · exact encString_lt _ b h
  · exact encString_lt _ b h
  · exact encOptString_lt _ b h
  · exact encOptString_lt _ b h
  · exact encOptString_lt _ b h
  · exact encOptString_lt _ b h

theorem parseEntries_flatten (es : List VaultEntry) (tl : List Nat) :
    parseEntries es.length ((es.map encEntry).flatten ++ tl) = some (es, tl) := by
  induction es with
  | nil => rfl
  | cons e es ih =>
    simp only [List.map_cons, List.flatten_cons, List.length_cons, parseEntries,
      List.append_assoc, parseEntry_encEntry, ih]

theorem parseVault_serializeVault (v : Vault) (tl : List Nat) :
    parseVault (serializeVault v ++ tl) = some (v, tl) := by
  unfold parseVault serializeVault
  rw [List.append_assoc, parseVarint_varint]
  simp only [parseEntries_flatten]

theorem serializeVault_lt (v : Vault) : ∀ b ∈ serializeVault v, b < 256 := by
  intro b hb
  rcases List.mem_append.mp hb with h1 | h2
  · exact varint_lt _ b h1
  · obtain ⟨l, hl, hbl⟩ := List.mem_flatten.mp h2
    obtain ⟨e, _, rfl⟩ := List.mem_map.mp hl
    exact encEntry_lt e b hbl

theorem openAE_sealAE (key : DerivedKey) (nonce pt : List Nat) :
    openAE key nonce (sealAE key nonce pt) = some pt := by
  unfold openAE sealAE
  rw [parseBytes_encBytes]
  simp

/-- Tag verification fails under a key derived from a different password:
the ideal tag is injective in the password component. -/
theorem openAE_wrong_password (p p2 : String) (salt nonce pt : List Nat)
    (hne : p2 ≠ p) :
    openAE (deriveKey p2 salt) nonce (sealAE (deriveKey p salt) nonce pt) = none := by
  unfold openAE sealAE
  rw [parseBytes_encBytes]
  have : macBytes (deriveKey p salt) nonce pt ≠ macBytes (deriveKey p2 salt) nonce pt := by
    intro h
    unfold macBytes deriveKey at h
    simp only [List.append_assoc] at h
    exact hne ((encString_append_inj h).1.symm)
  simp [this]

theorem sealAE_lt (key : DerivedKey) (nonce pt : List Nat)
    (hs : ∀ b ∈ key.salt, b < 256) (hn : ∀ b ∈ nonce, b < 256)
    (hp : ∀ b ∈ pt, b < 256) : ∀ b ∈ sealAE key nonce pt, b < 256 := by
  intro b hb
  unfold sealAE macBytes at hb
  simp only [List.append_assoc, List.mem_append] at hb
  rcases hb with h | h | h | h | h
  · exact encBytes_lt _ hp b h
  · exact encString_lt _ b h
  · exact encBytes_lt _ hs b h
  · exact encBytes_lt _ hn b h
  · exact encBytes_lt _ hp b h

theorem b64Index_b64Char : ∀ n < 64, b64Index (b64Char n) = some n := by decide

theorem b64Char_ne_pad : ∀ n < 64, b64Char n ≠ '=' := by decide

theorem b64Decode_b64Encode (bs : List Nat) (h : ∀ b ∈ bs, b < 256) :
    b64Decode (b64Encode bs) = some bs := by
  induction bs using b64Encode.induct with
  | case1 => rfl
  | case2 b1 =>
    have hb1 : b1 < 256 := h b1 (by simp)
    simp only [b64Encode, b64Decode, and_self, if_true, eq_self_iff_true,
      b64Index_b64Char (b1 / 4) (by omega), b64Index_b64Char (b1 % 4 * 16) (by omega)]
    rw [if_pos (by omega : b1 % 4 * 16 % 16 = 0)]
    simp only [Option.some.injEq, List.cons.injEq, and_true]
    omega
  | case3 b1 b2 =>
    have hb1 : b1 < 256 := h b1 (by simp)
    have hb2 : b2 < 256 := h b2 (by simp)
    simp only [b64Encode, b64Decode,
      if_neg (b64Char_ne_pad (b2 % 16 * 4) (by omega)), if_true, eq_self_iff_true,
      b64Index_b64Char (b1 / 4) (by omega),
      b64Index_b64Char (b1 % 4 * 16 + b2 / 16) (by omega),
      b64Index_b64Char (b2 % 16 * 4) (by omega)]
    rw [if_pos (by omega : b2 % 16 * 4 % 4 = 0)]
    simp only [Option.some.injEq, List.cons.injEq, and_true]
    omega
  | case4 b1 b2 b3 rest ih =>
    have hb1 : b1 < 256 := h b1 (by simp)
    have hb2 : b2 < 256 := h b2 (by simp)
    have hb3 : b3 < 256 := h b3 (by simp)
    have hrest : ∀ b ∈ rest, b < 256 := fun b hb => h b (by simp [hb])
    simp only [b64Encode, b64Decode,
      if_neg (b64Char_ne_pad (b2 % 16 * 4 + b3 / 64) (by omega)),
      if_neg (b64Char_ne_pad (b3 % 64) (by omega)),
      b64Index_b64Char (b1 / 4) (by omega),
      b64Index_b64Char (b1 % 4 * 16 + b2 / 16) (by omega),
      b64Index_b64Char (b2 % 16 * 4 + b3 / 64) (by omega),
      b64Index_b64Char (b3 % 64) (by omega), ih hrest]
    simp only [Option.some.injEq, List.cons.injEq, and_true]
    refine ⟨by omega, by omega, by omega⟩

theorem decodeB64_encodeB64 (bs : List Nat) (h : ∀ b ∈ bs, b < 256) :
    decodeB64 (encodeB64 bs) = some bs := b64Decode_b64Encode bs h

theorem decryptVault_decode_some {blob p : String} {bytes : List Nat}
    (h : decodeB64 blob = some bytes) :
    decryptVault blob p = decryptBytes p bytes := by
  unfold decryptVault
  rw [h]

theorem blob_bytes_lt (v : Vault) (p : String) (salt nonce : List Nat)
    (hsb : ∀ b ∈ salt, b < 256) (hnb : ∀ b ∈ nonce, b < 256) :
    ∀ b ∈ salt ++ (nonce ++
      sealAE (deriveKey p salt) nonce (serializeVault v)), b < 256 := by
  intro b hb
  simp only [List.mem_append] at hb
  rcases hb with h | h | h
  · exact hsb b h
  · exact hnb b h
  · exact sealAE_lt _ _ _ hsb hnb (serializeVault_lt v) b h

theorem take_drop_split (a b c : List Nat)
    (ha : a.length = SALT_LEN) (hb : b.length = NONCE_LEN) :
    (a ++ (b ++ c)).take SALT_LEN = a ∧
    ((a ++ (b ++ c)).drop SALT_LEN).take NONCE_LEN = b ∧
    ((a ++ (b ++ c)).drop SALT_LEN).drop NONCE_LEN = c := by
  refine ⟨?_, ?_, ?_⟩
  · rw [← ha, List.take_left]
  · rw [← ha, List.drop_left, ← hb, List.take_left]
  · rw [← ha, List.drop_left, ← hb, List.drop_left]

theorem decryptVault_roundtrip (v : Vault) (p : String) (salt nonce : List Nat)
    (hs : salt.length = SALT_LEN) (hn : nonce.length = NONCE_LEN)
    (hsb : ∀ b ∈ salt, b < 256) (hnb : ∀ b ∈ nonce, b < 256) :
    decryptVault (encryptVault v p salt nonce) p = Except.ok v := by
  rw [encryptVault,
    decryptVault_decode_some (decodeB64_encodeB64 _ (blob_bytes_lt v p salt nonce hsb hnb))]
  obtain ⟨h1, h2, h3⟩ := take_drop_split salt nonce
    (sealAE (deriveKey p salt) nonce (serializeVault v)) hs hn
  rw [decryptBytes, if_pos (by simp only [List.length_append, hs, hn]; omega)]
  rw [h1, h2, h3, openAE_sealAE, finishDecrypt]
  have hpv := parseVault_serializeVault v []
  rw [List.append_nil] at hpv
  rw [hpv, vaultOfParse]

theorem decryptVault_wrong_password (v : Vault) (p p2 : String)
    (salt nonce : List Nat)
    (hs : salt.length = SALT_LEN) (hn : nonce.length = NONCE_LEN)
    (hsb : ∀ b ∈ salt, b < 256) (hnb : ∀ b ∈ nonce, b < 256)
    (hne : p2 ≠ p) :
    decryptVault (encryptVault v p salt nonce) p2 =
      Except.error CryptoError.decryptionError := by
  rw [encryptVault,
    decryptVault_decode_some (decodeB64_encodeB64 _ (blob_bytes_lt v p salt nonce hsb hnb))]
  obtain ⟨h1, h2, h3⟩ := take_drop_split salt nonce
    (sealAE (deriveKey p salt) nonce (serializeVault v)) hs hn
  rw [decryptBytes, if_pos (by simp only [List.length_append, hs, hn]; omega)]
  rw [h1, h2, h3, openAE_wrong_password p p2 salt nonce (serializeVault v) hne,
    finishDecrypt]

theorem vaultOfParse_total (o : Option (Vault × List Nat)) :
    vaultOfParse o = Except.error CryptoError.decryptionError ∨
      ∃ v, vaultOfParse o = Except.ok v := by
  rcases o with _ | ⟨v, _ | ⟨b, r⟩⟩
  · exact Or.inl rfl
  · exact Or.inr ⟨v, rfl⟩
  · exact Or.inl rfl

theorem finishDecrypt_total (o : Option (List Nat)) :
    finishDecrypt o = Except.error CryptoError.decryptionError ∨
      ∃ v, finishDecrypt o = Except.ok v := by
  cases o with
  | none => exact Or.inl rfl
  | some pt => exact vaultOfParse_total (parseVault pt)

theorem decryptVault_total (s p : String) :
    decryptVault s p = Except.error CryptoError.decryptionError ∨
      ∃ v, decryptVault s p = Except.ok v := by
  cases hdec : decodeB64 s with
  | none =>
    left
    unfold decryptVault
    rw [hdec]
  | some bytes =>
    rw [decryptVault_decode_some hdec, decryptBytes]
    by_cases hlen : SALT_LEN + NONCE_LEN ≤ bytes.length
    · rw [if_pos hlen]
      exact finishDecrypt_total _
    · rw [if_neg hlen]
      exact Or.inl rfl

theorem decryptVault_not_base64 (s p : String) (h : decodeB64 s = none) :
    decryptVault s p = Except.error CryptoError.decryptionError := by
  unfold decryptVault
  rw [h]

theorem decryptVault_short (s p : String) (bytes : List Nat)
    (h : decodeB64 s = some bytes) (hlen : bytes.length < SALT_LEN + NONCE_LEN) :
    decryptVault s p = Except.error CryptoError.decryptionError := by
  rw [decryptVault_decode_some h, decryptBytes, if_neg (by omega)]

theorem encryptVault_ne_of_ne (v : Vault) (p : String)
    (salt1 nonce1 salt2 nonce2 : List Nat)
    (hs1 : salt1.length = SALT_LEN) (hn1 : nonce1.length = NONCE_LEN)
    (hsb1 : ∀ b ∈ salt1, b < 256) (hnb1 : ∀ b ∈ nonce1, b < 256)
    (hs2 : salt2.length = SALT_LEN) (hn2 : nonce2.length = NONCE_LEN)
    (hsb2 : ∀ b ∈ salt2, b < 256) (hnb2 : ∀ b ∈ nonce2, b < 256)
    (hne : (salt1, nonce1) ≠ (salt2, nonce2)) :
    encryptVault v p salt1 nonce1 ≠ encryptVault v p salt2 nonce2 := by
  intro heq
  unfold encryptVault at heq
  have hbytes :
      salt1 ++ (nonce1 ++ sealAE (deriveKey p salt1) nonce1 (serializeVault v)) =
      salt2 ++ (nonce2 ++ sealAE (deriveKey p salt2) nonce2 (serializeVault v)) := by
    have d1 := decodeB64_encodeB64 _ (blob_bytes_lt v p salt1 nonce1 hsb1 hnb1)
    have d2 := decodeB64_encodeB64 _ (blob_bytes_lt v p salt2 nonce2 hsb2 hnb2)
    rw [heq, d2] at d1
    injection d1 with d1
    exact d1.symm
  obtain ⟨h11, h12, _⟩ := take_drop_split salt1 nonce1
    (sealAE (deriveKey p salt1) nonce1 (serializeVault v)) hs1 hn1
  obtain ⟨h21, h22, _⟩ := take_drop_split salt2 nonce2
    (sealAE (deriveKey p salt2) nonce2 (serializeVault v)) hs2 hn2
  rw [hbytes] at h11 h12
  exact hne (by rw [Prod.mk.injEq, h11.symm.trans h21, h12.symm.trans h22]; exact ⟨rfl, rfl⟩)

theorem getItem_filter_ne (s : Store) (k : String) :
    getItem (List.filter (fun p => !(p.fst == k)) s) k = none := by
  induction s with
  | nil => rfl
  | cons p s ih =>
    rw [List.filter_cons]
    by_cases h : p.fst = k
    · simp only [h, beq_self_eq_true, Bool.not_true, Bool.false_eq_true, if_false]
      exact ih
    · have hb : (p.fst == k) = false := beq_eq_false_iff_ne.mpr h
      simp only [hb, Bool.not_false, if_true, getItem, List.find?]
      exact ih

theorem getItem_setItem_self (s : Store) (k v : String) :
    getItem (setItem s k v) k = some v := by
  simp [getItem, setItem, List.find?]

theorem getItem_removeItem_self (s : Store) (k : String) :
    getItem (removeItem s k) k = none := getItem_filter_ne s k

theorem getItem_filter_ne_other (s : Store) (k k2 : String) (h : k2 ≠ k) :
    getItem (List.filter (fun p => !(p.fst == k)) s) k2 = getItem s k2 := by
  induction s with
  | nil => rfl
  | cons p s ih =>
    rw [List.filter_cons]
    by_cases hp : p.fst = k
    · have hp2 : (p.fst == k2) = false :=
        beq_eq_false_iff_ne.mpr (by rw [hp]; exact fun hc => h hc.symm)
      simp only [hp, beq_self_eq_true, Bool.not_true, Bool.false_eq_true, if_false, ih]
      show getItem s k2 = getItem (p :: s) k2
      simp only [getItem, List.find?, hp2]
    · have hb : (p.fst == k) = false := beq_eq_false_iff_ne.mpr hp
      simp only [hb, Bool.not_false, if_true]
      by_cases hp2 : p.fst = k2
      · simp only [getItem, List.find?, hp2, beq_self_eq_true]
      · have hb2 : (p.fst == k2) = false := beq_eq_false_iff_ne.mpr hp2
        simp only [getItem, List.find?, hb2]
        exact ih

theorem getItem_setItem_other (s : Store) (k v k2 : String) (h : k2 ≠ k) :
    getItem (setItem s k v) k2 = getItem s k2 := by
  have hb : (k == k2) = false := beq_eq_false_iff_ne.mpr (fun hc => h hc.symm)
  simp only [setItem, getItem, List.find?, hb]
  exact getItem_filter_ne_other s k k2 h

theorem getItem_removeItem_other (s : Store) (k k2 : String) (h : k2 ≠ k) :
    getItem (removeItem s k) k2 = getItem s k2 :=
  getItem_filter_ne_other s k k2 h

theorem authedResult_none {store : Store} {resp : HttpResponse}
    (h : getItem store SESSION_TOKEN_KEY = none) :
    authedResult store resp = (Except.error ApiFailure.noSession, store) := by
  unfold authedResult
  rw [h]

theorem authedResult_empty {store : Store} {resp : HttpResponse}
    (h : getItem store SESSION_TOKEN_KEY = some "") :
    authedResult store resp = (Except.error ApiFailure.noSession, store) := by
  unfold authedResult
  rw [h]
  simp

theorem authedResult_401 {store : Store} {resp : HttpResponse} {t : String}
    (ht : getItem store SESSION_TOKEN_KEY = some t) (hne : t ≠ "")
    (hok : resp.ok = false) (h401 : resp.status = 401) :
    authedResult store resp =
      (Except.error ApiFailure.sessionExpired,
        removeItem store SESSION_TOKEN_KEY) := by
  unfold authedResult
  rw [ht]
  simp [hne, hok, h401]

theorem getVault_of_authed_error {store : Store} {resp : HttpResponse}
    {e : ApiFailure} {s : Store}
    (h : authedResult store resp = (Except.error e, s)) :
    getVault store resp = (Except.error e, s) := by
  unfold getVault
  rw [h]

theorem updateVault_of_authed_error {store : Store} {resp : HttpResponse}
    {e : ApiFailure} {s : Store} (ev : String)
    (h : authedResult store resp = (Except.error e, s)) :
    updateVault store resp ev = (Except.error e, s) := by
  unfold updateVault
  rw [h]

theorem changePassword_of_authed_error {store : Store} {resp : HttpResponse}
    {e : ApiFailure} {s : Store} (cp np : String)
    (h : authedResult store resp = (Except.error e, s)) :
    changePassword store resp cp np = (Except.error e, s) := by
  unfold changePassword
  rw [h]

theorem isAuthenticated_of_none {store : Store}
    (h : getItem store SESSION_TOKEN_KEY = none) :
    isAuthenticated store = false := by
  unfold isAuthenticated
  rw [h]

theorem authedResult_snd_frame (store : Store) (resp : HttpResponse)
    (k : String) (hk : k ≠ SESSION_TOKEN_KEY) :
    getItem (authedResult store resp).snd k = getItem store k := by
  unfold authedResult
  cases hg : getItem store SESSION_TOKEN_KEY with
  | none => rfl
  | some t =>
    by_cases h1 : t = ""
    · simp [h1]
    · by_cases h2 : resp.ok = true
      · simp [h1, h2]
      · by_cases h3 : resp.status = 401
        · simp [h1, h2, h3, getItem_removeItem_other store SESSION_TOKEN_KEY k hk]
        · simp [h1, h2, h3]

theorem getVault_snd (store : Store) (resp : HttpResponse) :
    (getVault store resp).snd = (authedResult store resp).snd := by
  unfold getVault
  rcases h : authedResult store resp with ⟨r, s⟩
  cases r <;> rfl

theorem updateVault_snd (store : Store) (resp : HttpResponse) (ev : String) :
    (updateVault store resp ev).snd = (authedResult store resp).snd := by
  unfold updateVault
  rcases h : authedResult store resp with ⟨r, s⟩
  cases r <;> rfl

theorem changePassword_snd (store : Store) (resp : HttpResponse)
    (cp np : String) :
    (changePassword store resp cp np).snd = (authedResult store resp).snd := by
  unfold changePassword
  rcases h : authedResult store resp with ⟨r, s⟩
  cases r <;> rfl

theorem login_snd_frame (store : Store) (resp : HttpResponse) (k : String)
    (hk : k ≠ SESSION_TOKEN_KEY) :
    getItem (login store resp).snd k = getItem store k := by
  unfold login
  by_cases h : resp.ok = true
  · simp [h, getItem_setItem_other store SESSION_TOKEN_KEY resp.session_token k hk]
  · simp [h]

theorem register_snd (store : Store) (resp : HttpResponse) :
    (register store resp).snd = store := by
  unfold register
  by_cases h : resp.ok = true
  · simp [h]
  · simp [h]

/-! ## Claims -/
/-- C1: for every Vault V (including the empty vault, entries with omitted
optional fields, and entries with arbitrary Unicode text) and every
non-empty master password P, decrypting the encryption of V under P with P
returns V field for field — absent optional fields staying `none` — for
every well-formed fresh salt and nonce the encrypting call samples. -/
theorem c1_encrypt_decrypt_roundtrip (v : Vault) (p : String)
    (salt nonce : List Nat) (_hp : p ≠ "")
    (hs : salt.length = SALT_LEN) (hn : nonce.length = NONCE_LEN)
    (hsb : ∀ b ∈ salt, b < 256) (hnb : ∀ b ∈ nonce, b < 256) :
    decryptVault (encryptVault v p salt nonce) p = Except.ok v :=
  decryptVault_roundtrip v p salt nonce hs hn hsb hnb

/-- Witness for C1 at a concrete vault exercising present and absent
optional fields and Unicode text. -/
theorem c1_encrypt_decrypt_roundtrip_witness :
    decryptVault
      (encryptVault
        ⟨[⟨"1", "Gmail", some "用户名🔒", some "x", none, none⟩,
          ⟨"2", "Bank", none, none, none, none⟩]⟩
        "pw" (List.range 16) (List.range 12)) "pw" =
    Except.ok
      ⟨[⟨"1", "Gmail", some "用户名🔒", some "x", none, none⟩,
        ⟨"2", "Bank", none, none, none, none⟩]⟩ :=
  c1_encrypt_decrypt_roundtrip _ "pw" _ _ (by decide) (by decide) (by decide)
    (by decide) (by decide)

/-- C2: decrypting under a wrong password fails with the decryption error;
decrypting a structurally malformed string — not well-formed base64, or
decoding to fewer bytes than a salt and nonce occupy — fails with the same
decryption error; and decryption is total — every outcome is either a
vault or that one error value, so the failure cases are indistinguishable
to the caller. -/
theorem c2_decrypt_failure_uniform :
    (∀ (v : Vault) (p p2 : String) (salt nonce : List Nat),
      salt.length = SALT_LEN → nonce.length = NONCE_LEN →
      (∀ b ∈ salt, b < 256) → (∀ b ∈ nonce, b < 256) → p2 ≠ p →
      decryptVault (encryptVault v p salt nonce) p2 =
        Except.error CryptoError.decryptionError) ∧
    (∀ s p : String, decodeB64 s = none →
      decryptVault s p = Except.error CryptoError.decryptionError) ∧
    (∀ (s p : String) (bytes : List Nat), decodeB64 s = some bytes →
      bytes.length < SALT_LEN + NONCE_LEN →
      decryptVault s p = Except.error CryptoError.decryptionError) ∧
    (∀ s p : String,
      decryptVault s p = Except.error CryptoError.decryptionError ∨
        ∃ v, decryptVault s p = Except.ok v) :=
  ⟨fun v p p2 salt nonce hs hn hsb hnb hne =>
      decryptVault_wrong_password v p p2 salt nonce hs hn hsb hnb hne,
    fun s p h => decryptVault_not_base64 s p h,
    fun s p bytes h hlen => decryptVault_short s p bytes h hlen,
    fun s p => decryptVault_total s p⟩

/-- Witness for C2: wrong password on a concrete blob, and the corrupted
input crypto.test.ts uses, both produce the same concrete error. -/
theorem c2_decrypt_failure_uniform_witness :
    decryptVault
        (encryptVault ⟨[]⟩ "pw" (List.range 16) (List.range 12)) "pw2" =
      Except.error CryptoError.decryptionError ∧
    decryptVault "InvalidBase64Data!@#$" "pw" =
      Except.error CryptoError.decryptionError ∧
    decryptVault "AA==" "pw" = Except.error CryptoError.decryptionError :=
  ⟨c2_decrypt_failure_uniform.1 ⟨[]⟩ "pw" "pw2" (List.range 16)
      (List.range 12) (by decide) (by decide) (by decide) (by decide)
      (by decide),
    c2_decrypt_failure_uniform.2.1 "InvalidBase64Data!@#$" "pw" (by decide),
    c2_decrypt_failure_uniform.2.2.1 "AA==" "pw" [0] (by decide) (by decide)⟩

/-- C3: two calls of encryptVault on the same vault and password produce
different blobs, because the fresh random salt and nonce sampled on each
call are embedded in the blob: whenever the two sampled (salt, nonce)
pairs differ — as fresh cryptographically random sampling guarantees — the
two blob strings differ. -/
theorem c3_encrypt_nondeterministic (v : Vault) (p : String)
    (salt1 nonce1 salt2 nonce2 : List Nat)
    (hs1 : salt1.length = SALT_LEN) (hn1 : nonce1.length = NONCE_LEN)
    (hsb1 : ∀ b ∈ salt1, b < 256) (hnb1 : ∀ b ∈ nonce1, b < 256)
    (hs2 : salt2.length = SALT_LEN) (hn2 : nonce2.length = NONCE_LEN)
    (hsb2 : ∀ b ∈ salt2, b < 256) (hnb2 : ∀ b ∈ nonce2, b < 256)
    (hne : (salt1, nonce1) ≠ (salt2, nonce2)) :
    encryptVault v p salt1 nonce1 ≠ encryptVault v p salt2 nonce2 :=
  encryptVault_ne_of_ne v p salt1 nonce1 salt2 nonce2
    hs1 hn1 hsb1 hnb1 hs2 hn2 hsb2 hnb2 hne

/-- Witness for C3 at two concrete samplings differing in one nonce byte. -/
theorem c3_encrypt_nondeterministic_witness :
    encryptVault ⟨[]⟩ "pw" (List.range 16) (List.range 12) ≠
      encryptVault ⟨[]⟩ "pw" (List.range 16)
        ((List.range 12).map (fun i => i + 1)) :=
  c3_encrypt_nondeterministic ⟨[]⟩ "pw" (List.range 16) (List.range 12)
    (List.range 16) ((List.range 12).map (fun i => i + 1))
    (by decide) (by decide) (by decide) (by decide)
    (by decide) (by decide) (by decide) (by decide) (by decide)

/-- C5: when getVault receives a 401 response while a session token is
held, it clears the stored token — `isAuthenticated` is false afterwards
and the key is gone — and fails with the session-expired error. -/
theorem c5_getVault_401_clears_token (store : Store) (resp : HttpResponse)
    (t : String) (ht : getItem store SESSION_TOKEN_KEY = some t)
    (hne : t ≠ "") (hok : resp.ok = false) (h401 : resp.status = 401) :
    getVault store resp =
      (Except.error ApiFailure.sessionExpired,
        removeItem store SESSION_TOKEN_KEY) ∧
    getItem (getVault store resp).snd SESSION_TOKEN_KEY = none ∧
    isAuthenticated (getVault store resp).snd = false := by
  have hg := getVault_of_authed_error (authedResult_401 ht hne hok h401)
  refine ⟨hg, ?_, ?_⟩
  · rw [hg]
    exact getItem_removeItem_self store SESSION_TOKEN_KEY
  · rw [hg]
    exact isAuthenticated_of_none (getItem_removeItem_self store SESSION_TOKEN_KEY)

/-- Witness for C5 on a concrete store holding a token and a concrete 401
response. -/
theorem c5_getVault_401_clears_token_witness :
    getVault (setItem clearStore SESSION_TOKEN_KEY "tok")
        ⟨false, 401, true, "", "", none⟩ =
      (Except.error ApiFailure.sessionExpired,
        removeItem (setItem clearStore SESSION_TOKEN_KEY "tok")
          SESSION_TOKEN_KEY) ∧
    getItem (getVault (setItem clearStore SESSION_TOKEN_KEY "tok")
        ⟨false, 401, true, "", "", none⟩).snd SESSION_TOKEN_KEY = none ∧
    isAuthenticated (getVault (setItem clearStore SESSION_TOKEN_KEY "tok")
        ⟨false, 401, true, "", "", none⟩).snd = false :=
  c5_getVault_401_clears_token (setItem clearStore SESSION_TOKEN_KEY "tok")
    ⟨false, 401, true, "", "", none⟩ "tok" (by decide) (by decide) rfl rfl

/-- C6: each authenticated operation — getVault, updateVault,
changePassword — invoked while no session token is held (no stored value,
or the empty string the module treats as no token) fails immediately with
the no-session error and leaves the store unchanged. -/
theorem c6_no_session_error (store : Store) (resp : HttpResponse)
    (ev cp np : String)
    (h : getItem store SESSION_TOKEN_KEY = none ∨
      getItem store SESSION_TOKEN_KEY = some "") :
    getVault store resp = (Except.error ApiFailure.noSession, store) ∧
    updateVault store resp ev = (Except.error ApiFailure.noSession, store) ∧
    changePassword store resp cp np =
      (Except.error ApiFailure.noSession, store) := by
  have ha : authedResult store resp = (Except.error ApiFailure.noSession, store) := by
    rcases h with h | h
    · exact authedResult_none h
    · exact authedResult_empty h
  exact ⟨getVault_of_authed_error ha, updateVault_of_authed_error ev ha,
    changePassword_of_authed_error cp np ha⟩

/-- Witness for C6 on the empty store. -/
theorem c6_no_session_error_witness :
    getVault clearStore ⟨true, 200, true, "", "", none⟩ =
      (Except.error ApiFailure.noSession, clearStore) ∧
    updateVault clearStore ⟨true, 200, true, "", "", none⟩ "blob" =
      (Except.error ApiFailure.noSession, clearStore) ∧
    changePassword clearStore ⟨true, 200, true, "", "", none⟩ "old" "new" =
      (Except.error ApiFailure.noSession, clearStore) :=
  c6_no_session_error clearStore ⟨true, 200, true, "", "", none⟩
    "blob" "old" "new" (Or.inl rfl)

/-- C7: login maps every non-success response, whatever its status code,
to one and the same uniform session error — two failing responses with
different statuses produce equal results, and the status is not exposed in
the error value. -/
theorem c7_login_uniform_failure (store1 store2 : Store)
    (r1 r2 : HttpResponse) (h1 : r1.ok = false) (h2 : r2.ok = false) :
    (login store1 r1).fst = Except.error ApiFailure.sessionExpired ∧
    (login store1 r1).fst = (login store2 r2).fst := by
  unfold login
  rw [h1, h2]
  exact ⟨rfl, rfl⟩

/-- Witness for C7: a 401 and a 500 login failure give the identical
error. -/
theorem c7_login_uniform_failure_witness :
    (login clearStore ⟨false, 401, true, "", "", none⟩).fst =
      Except.error ApiFailure.sessionExpired ∧
    (login clearStore ⟨false, 401, true, "", "", none⟩).fst =
      (login clearStore ⟨false, 500, true, "", "", none⟩).fst :=
  c7_login_uniform_failure clearStore clearStore
    ⟨false, 401, true, "", "", none⟩ ⟨false, 500, true, "", "", none⟩ rfl rfl

/-- C8: isAuthenticated is true exactly when a non-empty token is stored
(false on the empty string); a successful login stores the returned
non-empty token, making it true; logout removes the token, making it
false, and is a total function succeeding on every store, token held or
not. -/
theorem c8_isAuthenticated_login_logout :
    (∀ store : Store, isAuthenticated store = true ↔
      ∃ t, getItem store SESSION_TOKEN_KEY = some t ∧ t ≠ "") ∧
    (∀ (store : Store) (resp : HttpResponse), resp.ok = true →
      resp.session_token ≠ "" →
      (login store resp).fst =
        Except.ok (resp.session_token, resp.expires_at) ∧
      getItem (login store resp).snd SESSION_TOKEN_KEY =
        some resp.session_token ∧
      isAuthenticated (login store resp).snd = true) ∧
    (∀ store : Store,
      getItem (logout store) SESSION_TOKEN_KEY = none ∧
      isAuthenticated (logout store) = false) := by
  refine ⟨fun store => ?_, fun store resp hok hne => ?_, fun store => ?_⟩
  · unfold isAuthenticated
    cases hg : getItem store SESSION_TOKEN_KEY with
    | none => simp
    | some t => simp
  · unfold login
    rw [hok, if_pos (rfl : (true : Bool) = true)]
    refine ⟨rfl, ?_, ?_⟩
    · exact getItem_setItem_self store SESSION_TOKEN_KEY resp.session_token
    · unfold isAuthenticated
      rw [getItem_setItem_self store SESSION_TOKEN_KEY resp.session_token]
      simp [hne]
  · exact ⟨getItem_removeItem_self store SESSION_TOKEN_KEY,
      isAuthenticated_of_none (getItem_removeItem_self store SESSION_TOKEN_KEY)⟩

/-- Witness for C8: the characterization at a store holding the empty
token, a concrete successful login, and logout on the empty store. -/
theorem c8_isAuthenticated_login_logout_witness :
    (isAuthenticated (setItem clearStore SESSION_TOKEN_KEY "") = true ↔
      ∃ t, getItem (setItem clearStore SESSION_TOKEN_KEY "")
        SESSION_TOKEN_KEY = some t ∧ t ≠ "") ∧
    getItem (login clearStore ⟨true, 200, true, "tok", "2024", none⟩).snd
      SESSION_TOKEN_KEY = some "tok" ∧
    isAuthenticated (logout clearStore) = false :=
  ⟨c8_isAuthenticated_login_logout.1 (setItem clearStore SESSION_TOKEN_KEY ""),
    (c8_isAuthenticated_login_logout.2.1 clearStore
      ⟨true, 200, true, "tok", "2024", none⟩ rfl (by decide)).2.1,
    (c8_isAuthenticated_login_logout.2.2 clearStore).2⟩

/-- C4 counterexample: the claim — every reachable client state keeps no
secret but the session token in the durable store — fails on the state the
repository's own Vault component tests establish as the component's
operating precondition: the durable store holds the master-password hash
under `master_password_hash`, a key other than `session_token`, and the
Vault component reads it there to decrypt (Vault.test.tsx:29-33 and
171-177). -/
theorem c4_counterexample_master_password_persisted :
    getItem vaultTestStore MASTER_PASSWORD_HASH_KEY = some "test-password" ∧
    MASTER_PASSWORD_HASH_KEY ≠ SESSION_TOKEN_KEY ∧
    ¬ onlySessionTokenPersisted vaultTestStore := by
  refine ⟨by decide, by decide, fun h => ?_⟩
  have hk := h MASTER_PASSWORD_HASH_KEY "test-password" (by decide)
  exact absurd hk (by decide)

/-- C4 amended: the api module itself persists nothing but the session
token — every api operation leaves every other key of the durable store
unchanged — but the vault UI additionally keeps the master-password hash in
the durable store under `master_password_hash`, where the Vault component
reads it for decryption; so the session token is not the only persisted
secret. -/
theorem c4_api_persists_only_token :
    (∀ (store : Store) (resp : HttpResponse) (ev cp np k : String),
      k ≠ SESSION_TOKEN_KEY →
      getItem (login store resp).snd k = getItem store k ∧
      getItem (register store resp).snd k = getItem store k ∧
      getItem (getVault store resp).snd k = getItem store k ∧
      getItem (updateVault store resp ev).snd k = getItem store k ∧
      getItem (changePassword store resp cp np).snd k = getItem store k ∧
      getItem (logout store) k = getItem store k) ∧
    getItem vaultTestStore MASTER_PASSWORD_HASH_KEY = some "test-password" := by
  refine ⟨fun store resp ev cp np k hk => ?_, by decide⟩
  refine ⟨login_snd_frame store resp k hk, ?_, ?_, ?_, ?_, ?_⟩
  · rw [register_snd]
  · rw [getVault_snd]
    exact authedResult_snd_frame store resp k hk
  · rw [updateVault_snd]
    exact authedResult_snd_frame store resp k hk
  · rw [changePassword_snd]
    exact authedResult_snd_frame store resp k hk
  · exact getItem_removeItem_other store SESSION_TOKEN_KEY k hk

/-- Witness for the amended C4 at a concrete store, response and key. -/
theorem c4_api_persists_only_token_witness :
    getItem (login (setItem clearStore MASTER_PASSWORD_HASH_KEY "h")
        ⟨true, 200, true, "tok", "", none⟩).snd MASTER_PASSWORD_HASH_KEY =
      getItem (setItem clearStore MASTER_PASSWORD_HASH_KEY "h")
        MASTER_PASSWORD_HASH_KEY ∧
    getItem vaultTestStore MASTER_PASSWORD_HASH_KEY = some "test-password" :=
  ⟨(c4_api_persists_only_token.1 (setItem clearStore MASTER_PASSWORD_HASH_KEY "h")
      ⟨true, 200, true, "tok", "", none⟩ "" "" "" MASTER_PASSWORD_HASH_KEY
      (by decide)).1,
    c4_api_persists_only_token.2⟩

/-- C9: generatePassword returns a string of exactly the requested number
of characters, every character drawn from the fixed default charset, and
the length defaults to 16 when none is given. -/
theorem c9_generatePassword_length_charset (rand : Nat → Nat) (n : Nat) :
    (generatePassword rand n).length = n ∧
    (∀ c, c ∈ (generatePassword rand n).data → c ∈ defaultCharset.data) ∧
    (generatePassword rand).length = 16 := by
  refine ⟨?_, fun c hc => ?_, ?_⟩
  · simp [generatePassword]
  · have hc2 : c ∈ (List.range n).map
        (fun i => defaultCharset.data.getD
          (rand i % defaultCharset.data.length) 'a') := hc
    obtain ⟨i, _, rfl⟩ := List.mem_map.mp hc2
    have hlt : rand i % defaultCharset.data.length <
        defaultCharset.data.length :=
      Nat.mod_lt _ (by decide)
    rw [List.getD_eq_getElem defaultCharset.data 'a' hlt]
    exact List.getElem_mem hlt
  · simp [generatePassword]

/-- Witness for C9 at a concrete random stream, length and character. -/
theorem c9_generatePassword_length_charset_witness :
    (generatePassword (fun i => i) 5).length = 5 ∧
    'a' ∈ (generatePassword (fun i => i) 5).data ∧
    'a' ∈ defaultCharset.data :=
  ⟨(c9_generatePassword_length_charset (fun i => i) 5).1, by decide,
    (c9_generatePassword_length_charset (fun i => i) 5).2.1 'a' (by decide)⟩

/-- C10: the request module embedded in src/vitest.setup.ts attaches no
Authorization header on any of its three calls (getVault passes no headers
at all), addresses the vault by the user's email in the URL path, and maps
every non-ok response to a fixed generic error message that does not carry
the status code — two failures with different statuses are equal — so
every caller of this module reads and writes the vault without a session. -/
theorem c10_setup_module_sessionless :
    (∀ email encryptedVault : String,
      (∀ h ∈ (SetupApi.registerUserRequest email encryptedVault).headers,
        h.fst ≠ "Authorization") ∧
      (SetupApi.getVaultRequest email).headers = [] ∧
      (∀ h ∈ (SetupApi.updateVaultRequest email encryptedVault).headers,
        h.fst ≠ "Authorization") ∧
      (SetupApi.getVaultRequest email).url =
        SetupApi.API_URL ++ "/vault/" ++ email ∧
      (SetupApi.updateVaultRequest email encryptedVault).url =
        SetupApi.API_URL ++ "/vault/" ++ email) ∧
    (∀ (email encryptedVault : String) (r1 r2 : SetupApi.SetupResponse),
      r1.ok = false → r2.ok = false →
      SetupApi.registerUser email encryptedVault r1 =
        Except.error "Registration failed" ∧
      SetupApi.getVault email r1 = Except.error "Failed to get vault" ∧
      SetupApi.updateVault email encryptedVault r1 =
        Except.error "Failed to update vault" ∧
      SetupApi.registerUser email encryptedVault r1 =
        SetupApi.registerUser email encryptedVault r2 ∧
      SetupApi.getVault email r1 = SetupApi.getVault email r2 ∧
      SetupApi.updateVault email encryptedVault r1 =
        SetupApi.updateVault email encryptedVault r2) := by
  refine ⟨fun email encryptedVault => ?_, fun email encryptedVault r1 r2 h1 h2 => ?_⟩
  · refine ⟨fun h hmem => ?_, rfl, fun h hmem => ?_, rfl, rfl⟩
    · rcases List.mem_singleton.mp hmem with rfl
      decide
    · rcases List.mem_singleton.mp hmem with rfl
      decide
  · unfold SetupApi.registerUser SetupApi.getVault SetupApi.updateVault
    rw [h1, h2]
    exact ⟨rfl, rfl, rfl, rfl, rfl, rfl⟩

/-- Witness for C10 at a concrete email and a 401 / 500 response pair. -/
theorem c10_setup_module_sessionless_witness :
    (SetupApi.getVaultRequest "u@e.io").url =
      SetupApi.API_URL ++ "/vault/" ++ "u@e.io" ∧
    SetupApi.getVault "u@e.io" ⟨false, 401, ""⟩ =
      Except.error "Failed to get vault" ∧
    SetupApi.getVault "u@e.io" ⟨false, 401, ""⟩ =
      SetupApi.getVault "u@e.io" ⟨false, 500, ""⟩ :=
  ⟨(c10_setup_module_sessionless.1 "u@e.io" "").2.2.2.1,
    (c10_setup_module_sessionless.2 "u@e.io" "" ⟨false, 401, ""⟩
      ⟨false, 500, ""⟩ rfl rfl).2.1,
    (c10_setup_module_sessionless.2 "u@e.io" "" ⟨false, 401, ""⟩
      ⟨false, 500, ""⟩ rfl rfl).2.2.2.2.1⟩

end ZCloudPass
